import Mathlib

/-!
Verification of `build/android/buildbot/bb_run_bot.py`: a buildbot
dispatcher that resolves a bot id to a static configuration, formats the
configured steps into commands, and runs them in sequence.

The Python source is shallowly embedded below: namedtuples become
structures, the module-level tables become Lean lists, dictionaries become
association lists built with a last-wins insert, fallible construction
(assertions, KeyError) becomes `Option`, and the process driver becomes a
function producing an exit code together with a trace of observable
events.  External collaborators (the `json` and `pipes` libraries, the
option parser, the spawned child processes) are modelled at their
interfaces: `jsonDumps`/`pipesQuote` are concrete stand-ins whose output
the claims never inspect, JSON decoding is an explicit
`String → Option Props` parameter, and child exit codes are an explicit
`List String → Int` oracle.
-/

namespace BbRunBot

/-- Key/value properties as carried in the JSON property flags.  The
script only ever reads string values out of these objects
(`factory_properties.get('android_bot_id')`), so an association list of
strings suffices. -/
abbrev Props := List (String × String)

/-- First-match association-list lookup, the semantics of Python
dictionary indexing for the maps below (which are built with `dictInsert`
and therefore have unique keys). -/
def alistLookup {α : Type} : List (String × α) → String → Option α
  | [], _ => none
  | (k, v) :: rest, key => if k = key then some v else alistLookup rest key

/-- Last-wins insert: the semantics of `d[k] = v` on a Python dict,
keeping the first occurrence's position.  Building a dict from a list of
pairs folds this over the empty list. -/
def dictInsert {α : Type} : List (String × α) → String → α → List (String × α)
  | [], k, v => [(k, v)]
  | (k1, v1) :: rest, k, v =>
      if k1 = k then (k, v) :: rest else (k1, v1) :: dictInsert rest k v

/-- `base.update(upd)` on Python dicts. -/
def dictUpdate (base upd : Props) : Props :=
  upd.foldl (fun m kv => dictInsert m kv.1 kv.2) base

/-- `needle in hay` on Python strings: literal substring containment. -/
def strContains (hay needle : String) : Bool :=
  (List.range (hay.data.length + 1)).any fun i =>
    needle.data.isPrefixOf (hay.data.drop i)

/-- `s.startswith(pre)` on Python strings. -/
def strStartsWith (s pre : String) : Bool :=
  pre.data.isPrefixOf s.data

/-- `TestConfig = collections.namedtuple('Tests', ['tests', 'extra_args'])`.
`extra_args` defaults to `None` in the `T` helper, hence the `Option`. -/
structure TestConfig where
  tests : List String
  extra_args : Option (List String)
deriving DecidableEq, Repr

/-- `BotConfig = collections.namedtuple('BotConfig',
['bot_id', 'host_opts', 'test_obj', 'slave_props'])`. -/
structure BotConfig where
  bot_id : String
  host_opts : List String
  test_obj : Option TestConfig
  slave_props : Option Props
deriving DecidableEq, Repr

/-- `Command = collections.namedtuple('Command',
['step_name', 'command', 'testing_cmd'])`.  The driver tests both fields
for Python truthiness, so `testing_cmd` stays an `Option`. -/
structure Command where
  step_name : String
  command : List String
  testing_cmd : Option (List String)
deriving DecidableEq, Repr

/-- `CHROME_SRC`: absolute source root derived from the script location at
run time.  Its value is never inspected by any claim; a fixed constant
models it. -/
def CHROME_SRC : String := "/b/build/slave/workdir/build/src"

/-- `GLOBAL_SLAVE_PROPS = {}`. -/
def GLOBAL_SLAVE_PROPS : Props := []

/-- Stand-in for the external `json.dumps`: a deterministic serialization
of a property object.  No claim inspects its output. -/
def jsonDumps (props : Props) : String :=
  "\x7b" ++ String.intercalate ", "
    (props.map fun kv => "\x22" ++ kv.1 ++ "\x22: \x22" ++ kv.2 ++ "\x22") ++ "\x7d"

/-- Stand-in for the external `pipes.quote`: shell quoting.  No claim
inspects its output. -/
def pipesQuote (s : String) : String := "\x27" ++ s ++ "\x27"

/-- The `WrapWithBash` closure inside `GetCommands` (lines 55-62): wraps a
joined command string in a bash invocation that first sources the
buildbot functions and runs `bb_baseline_setup`. -/
def WrapWithBash (slave_properties : String) (command : String) : List String :=
  ["bash", "-exc", String.intercalate "; " [
    ". build/android/buildbot/buildbot_functions.sh",
    "bb_baseline_setup " ++ CHROME_SRC ++ " --slave-properties=" ++
      pipesQuote slave_properties,
    command]]

/-- The parsed option values of `main` (after `parser.parse_args`):
`--build-properties` and `--factory-properties` decoded from JSON
(default `{}`), `--bot-id`, and the `--TESTING` switch. -/
structure Options where
  build_properties : Props
  factory_properties : Props
  bot_id : Option String
  TESTING : Bool
deriving DecidableEq, Repr

/-- The merged slave properties of `GetCommands` (lines 44-46):
`dict(GLOBAL_SLAVE_PROPS)` updated with the bot-specific overrides when
present. -/
def slavePropsOf (bot_config : BotConfig) : Props :=
  dictUpdate GLOBAL_SLAVE_PROPS (bot_config.slave_props.getD [])

/-- The three serialized property arguments appended to every sub-command
(lines 49-52). -/
def propertyArgs (options : Options) (slave_properties : String) : List String :=
  ["--factory-properties=" ++ jsonDumps options.factory_properties,
   "--build-properties=" ++ jsonDumps options.build_properties,
   "--slave-properties=" ++ slave_properties]

/-- `GetCommands(options, bot_config)` (lines 35-83): the formatted list
of commands for a resolved bot config. -/
def GetCommands (options : Options) (bot_config : BotConfig) : List Command :=
  let slave_properties := jsonDumps (slavePropsOf bot_config)
  let property_args := propertyArgs options slave_properties
  let host_commands : List Command :=
    if bot_config.host_opts.isEmpty then [] else
      let host_cmd := ["build/android/buildbot/bb_host_steps.py"] ++
        bot_config.host_opts ++ property_args
      [⟨"Host steps",
        WrapWithBash slave_properties
          (String.intercalate " " (host_cmd.map pipesQuote)),
        some host_cmd⟩]
  let test_commands : List Command :=
    match bot_config.test_obj with
    | none => []
    | some test_obj =>
      let run_test_cmd := ["build/android/buildbot/bb_device_steps.py", "--reboot"]
        ++ property_args
        ++ (test_obj.tests.flatMap fun test => ["-f", test])
        ++ test_obj.extra_args.getD []
      [⟨"Run tests",
        WrapWithBash slave_properties
          (String.intercalate " " (run_test_cmd.map pipesQuote)),
        some run_test_cmd⟩]
  host_commands ++ test_commands

/-- `compile_opt` (line 87). -/
def compile_opt : List String := ["--compile"]

/-- `std_host_tests` (line 88). -/
def std_host_tests : List String := ["--host-tests=check_webview_licenses,findbugs"]

/-- `std_build_opts` (line 89). -/
def std_build_opts : List String := ["--compile", "--zip-build"]

/-- `std_test_opts` (line 90). -/
def std_test_opts : List String := ["--extract-build"]

/-- `std_tests` (line 91). -/
def std_tests : List String := ["ui", "unit"]

/-- `flakiness_server = '--upload-to-flakiness-server'` (line 92). -/
def flakiness_server : String := "--upload-to-flakiness-server"

/-- `extra_gyp = 'extra_gyp_defines'` (line 93). -/
def extra_gyp : String := "extra_gyp_defines"

/-- The `B` helper of `GetBotStepMap` (lines 95-96), with the Python
defaults `test_obj=None, slave_props=None` passed explicitly. -/
def B (bot_id : String) (bash_funs : List String) (test_obj : Option TestConfig)
    (slave_props : Option Props) : BotConfig :=
  ⟨bot_id, bash_funs, test_obj, slave_props⟩

/-- The `T` helper of `GetBotStepMap` (lines 98-99). -/
def T (tests : List String) (extra_args : Option (List String)) : TestConfig :=
  ⟨tests, extra_args⟩

/-- `bot_configs` (lines 101-132): the fixed list of primary bot
configurations. -/
def bot_configs : List BotConfig := [
  B "main-builder-dbg" (std_build_opts ++ std_host_tests) none none,
  B "main-builder-rel" std_build_opts none none,
  B "main-clang-builder" compile_opt none (some [(extra_gyp, "clang=1")]),
  B "main-clobber" compile_opt none none,
  B "main-tests" std_test_opts (some (T std_tests (some [flakiness_server]))) none,
  B "asan-builder-tests" (compile_opt ++ ["--update-clang"])
    (some (T std_tests (some ["--asan"]))) (some [(extra_gyp, "asan=1")]),
  B "chromedriver-fyi-tests-dbg" std_test_opts
    (some (T ["chromedriver"] (some ["--install=ChromiumTestShell"]))) none,
  B "fyi-builder-dbg" (std_build_opts ++ std_host_tests ++ ["--experimental"]) none none,
  B "fyi-builder-rel" (std_build_opts ++ ["--experimental"]) none none,
  B "fyi-tests-dbg-ics-gn" (compile_opt ++ ["--experimental"])
    (some (T std_tests (some ["--experimental", flakiness_server]))) none,
  B "fyi-tests" std_test_opts
    (some (T std_tests (some ["--experimental", flakiness_server]))) none,
  B "fyi-component-builder-tests-dbg" compile_opt
    (some (T std_tests (some ["--experimental", flakiness_server])))
    (some [(extra_gyp, "component=shared_library")]),
  B "perf-tests-rel" std_test_opts (some (T [] (some ["--install=ContentShell"]))) none,
  B "webkit-latest-webkit-tests" std_test_opts
    (some (T ["webkit_layout", "webkit"] none)) none,
  B "webkit-latest-contentshell" compile_opt (some (T ["webkit_layout"] none)) none,
  B "builder-unit-tests" compile_opt (some (T ["unit"] none)) none,
  B "builder" std_build_opts none none]

/-- `copy_map` (lines 137-146): alias bots, each copying the
configuration of an earlier bot. -/
def copy_map : List (String × String) := [
  ("lkgr-clobber", "main-clobber"),
  ("try-builder-dbg", "main-builder-dbg"),
  ("try-builder-rel", "main-builder-rel"),
  ("try-clang-builder", "main-clang-builder"),
  ("try-fyi-builder-dbg", "fyi-builder-dbg"),
  ("try-tests", "main-tests"),
  ("try-fyi-tests", "fyi-tests"),
  ("webkit-latest-tests", "main-tests")]

/-- The bot map: a Python dict from bot id to `BotConfig`, embedded as an
association list with unique keys. -/
abbrev BotMap := List (String × BotConfig)

/-- The try-bot fixup of `GetBotStepMap` (lines 152-158): if the new id
starts with `try` and the copied config has a truthy `extra_args` list
containing the flakiness-server flag, remove that flag (in place in
Python, so the stored copy is what changes; the deep copy keeps the
source untouched). -/
def stripFlakiness (to_id : String) (cfg : BotConfig) : BotConfig :=
  match cfg.test_obj with
  | none => cfg
  | some t =>
    if strStartsWith to_id "try" then
      match t.extra_args with
      | none => cfg
      | some ea =>
        if !ea.isEmpty && ea.contains flakiness_server then
          { cfg with test_obj := some { t with extra_args := some (ea.erase flakiness_server) } }
        else cfg
    else cfg

/-- One iteration of the copy loop (lines 147-158): `assert to_id not in
bot_map` becomes `none` on an existing key, the `bot_map[from_id]`
`KeyError` becomes `none` on a missing source, and the stored entry is
the deep copy renamed to `to_id` with the try-bot flag stripped. -/
def applyCopy (m : BotMap) (pair : String × String) : Option BotMap :=
  if (alistLookup m pair.1).isSome then none
  else
    match alistLookup m pair.2 with
    | none => none
    | some src => some (dictInsert m pair.1 (stripFlakiness pair.1 { src with bot_id := pair.1 }))

/-- Bot-map construction, generalized over the declared tables:
`dict((config.bot_id, config) for config in bot_configs)` followed by the
copy loop.  `none` models the copy loop's assertion failure or
`KeyError`; the primary indexing step itself can never fail (a duplicate
primary id silently overwrites). -/
def buildBotMap (primaries : List BotConfig) (copies : List (String × String)) :
    Option BotMap :=
  let base := primaries.foldl (fun m c => dictInsert m c.bot_id c) []
  copies.foldlM applyCopy base

/-- `GetBotStepMap()` (lines 86-159), instantiated at the script's fixed
tables. -/
def GetBotStepMap : Option BotMap := buildBotMap bot_configs copy_map

/-- The bot map `main` works with.  `GetBotStepMap` succeeds on the fixed
tables (proved below), so the default is never taken. -/
def botMap : BotMap := GetBotStepMap.getD []

/-- The substring candidates of `main` (line 192): every key of the bot
map that occurs literally inside the supplied id, in map order. -/
def substringMatches (m : BotMap) (bot_id : String) : List String :=
  (m.map Prod.fst).filter fun k => strContains bot_id k

/-- One comparison step of Python `max(l, key=len)`: keep the current
best unless the candidate is strictly longer. -/
def pickLonger (best c : String) : String :=
  if c.length > best.length then c else best

/-- Python `max(l, key=len)` on a non-empty list: the first element of
maximal length. -/
def maxByLen : List String → Option String
  | [] => none
  | x :: xs => some (xs.foldl pickLonger x)

/-- Bot resolution (lines 189-196): exact lookup first; otherwise the
longest key occurring as a substring of the id, when any key does. -/
def resolveBot (m : BotMap) (bot_id : String) : Option BotConfig :=
  match alistLookup m bot_id with
  | some cfg => some cfg
  | none =>
    match maxByLen (substringMatches m bot_id) with
    | none => none
    | some max_id => alistLookup m max_id

/-- The raw command line as the option parser sees it: the value of each
recognized flag when supplied, and any leftover positional arguments. -/
structure RawArgs where
  build_properties : Option String
  factory_properties : Option String
  bot_id : Option String
  TESTING : Bool
  positional : List String
deriving DecidableEq, Repr

/-- The value of a property flag after the `ConvertJson` callback: an
absent flag keeps the default `{}`; a supplied flag is decoded by the
external `json.loads` (the `jsonLoads` parameter), whose failure is
`none`. -/
def decodeFlag (jsonLoads : String → Option Props) : Option String → Option Props
  | none => some []
  | some s => jsonLoads s

/-- The option-parsing phase of `main` (lines 163-179) including the
`ConvertJson` callbacks: each supplied property flag is decoded during
parsing; a decode failure or leftover positional arguments end the run
at the parsing layer (`Except.error`). -/
def parseOptions (jsonLoads : String → Option Props) (raw : RawArgs) :
    Except Unit Options :=
  match decodeFlag jsonLoads raw.build_properties with
  | none => .error ()
  | some build_properties =>
    match decodeFlag jsonLoads raw.factory_properties with
    | none => .error ()
    | some factory_properties =>
      if raw.positional ≠ [] then .error ()
      else .ok ⟨build_properties, factory_properties, raw.bot_id, raw.TESTING⟩

/-- `options.bot_id or options.factory_properties.get('android_bot_id')`
(line 181), with Python truthiness: an absent or empty flag value falls
through to the factory-properties key. -/
def chosenBotId (options : Options) : Option String :=
  match options.bot_id with
  | some s => if s = "" then alistLookup options.factory_properties "android_bot_id" else some s
  | none => alistLookup options.factory_properties "android_bot_id"

/-- Python truthiness of the chosen bot id (`if not bot_id`, line 182). -/
def botIdTruthy : Option String → Bool
  | none => false
  | some s => s ≠ ""

/-- Observable events of a run, in order: the resolution attempt over the
bot map, the named-step marker printed before a command, the spawning of
a child with a given argv, and the testing-mode skip of a command whose
`testing_cmd` is falsy. -/
inductive Event where
  | resolve (bot_id : String)
  | namedStep (name : String)
  | exec (argv : List String)
  | skipped
deriving DecidableEq, Repr

/-- Python truthiness of `command_obj.testing_cmd` (line 215). -/
def testingCmdFalsy : Option (List String) → Bool
  | none => true
  | some l => l.isEmpty

/-- The command loop of `main` (lines 207-224), parameterized by the
child-process exit codes (`exitCode argv` models `subprocess.call`).
Returns `main`'s Python return value — `some code` for the early
`return return_code`, `none` for falling off the loop — together with the
event trace: the named-step marker is printed whenever `step_name` is
truthy, before the testing-mode skip check; a non-zero child exit returns
immediately. -/
def runCommands (testing : Bool) (exitCode : List String → Int) :
    List Command → Option Int × List Event
  | [] => (none, [])
  | c :: rest =>
    let pre : List Event := if c.step_name = "" then [] else [.namedStep c.step_name]
    if testing then
      if testingCmdFalsy c.testing_cmd then
        let r := runCommands testing exitCode rest
        (r.1, pre ++ Event.skipped :: r.2)
      else
        let argv := c.testing_cmd.getD []
        let code := exitCode argv
        if code ≠ 0 then (some code, pre ++ [.exec argv])
        else
          let r := runCommands testing exitCode rest
          (r.1, pre ++ .exec argv :: r.2)
    else
      let code := exitCode c.command
      if code ≠ 0 then (some code, pre ++ [.exec c.command])
      else
        let r := runCommands testing exitCode rest
        (r.1, pre ++ .exec c.command :: r.2)

/-- `sys.exit(main(sys.argv))`: a `None` return (falling off the command
loop) exits with status 0; an integer return becomes the exit status. -/
def programExitCode : Option Int → Int
  | none => 0
  | some code => code

/-- How the process ends: a parsing-layer error (`parser.error` or a
property-flag decode failure), or a normal exit with a status code. -/
inductive MainOutcome where
  | usage
  | exit (code : Int)
deriving DecidableEq, Repr

/-- `main(argv)` (lines 162-224) end to end: parse the options (decoding
property flags via `jsonLoads`), choose the bot id, resolve it against
the bot map, format the commands, and run them against the child exit
codes `exitCode`.  Produces the outcome and the event trace. -/
def mainRun (jsonLoads : String → Option Props) (raw : RawArgs)
    (exitCode : List String → Int) : MainOutcome × List Event :=
  match parseOptions jsonLoads raw with
  | .error _ => (.usage, [])
  | .ok options =>
    let bid := chosenBotId options
    if botIdTruthy bid then
      let b := bid.getD ""
      match resolveBot botMap b with
      | none => (.exit 1, [.resolve b])
      | some bot_config =>
        let r := runCommands options.TESTING exitCode (GetCommands options bot_config)
        (.exit (programExitCode r.1), .resolve b :: r.2)
    else (.usage, [])

/-! ## Helper lemmas -/

theorem pickLonger_cases (best c : String) :
    pickLonger best c = best ∨ pickLonger best c = c := by
  unfold pickLonger
  split <;> simp

theorem length_le_pickLonger_left (best c : String) :
    best.length ≤ (pickLonger best c).length := by
  unfold pickLonger
  split <;> omega

theorem length_le_pickLonger_right (best c : String) :
    c.length ≤ (pickLonger best c).length := by
  unfold pickLonger
  split <;> omega

theorem foldl_pickLonger_mem (xs : List String) :
    ∀ x, xs.foldl pickLonger x ∈ x :: xs := by
  induction xs with
  | nil => intro x; simp
  | cons y ys ih =>
    intro x
    have h := ih (pickLonger x y)
    rcases pickLonger_cases x y with h1 | h1 <;>
      · rw [h1] at h
        simp only [List.foldl_cons]
        rw [h1]
        rcases List.mem_cons.mp h with h2 | h2 <;> simp [h2]

theorem foldl_pickLonger_ge (xs : List String) :
    ∀ x y, y ∈ x :: xs → y.length ≤ (xs.foldl pickLonger x).length := by
  induction xs with
  | nil =>
    intro x y hy
    simp at hy
    simp [hy]
  | cons z zs ih =>
    intro x y hy
    simp only [List.foldl_cons]
    rcases List.mem_cons.mp hy with h1 | h1
    · subst h1
      exact le_trans (length_le_pickLonger_left y z)
        (ih (pickLonger y z) _ (List.mem_cons_self _ _))
    · rcases List.mem_cons.mp h1 with h2 | h2
      · subst h2
        exact le_trans (length_le_pickLonger_right x y)
          (ih (pickLonger x y) _ (List.mem_cons_self _ _))
      · exact ih (pickLonger x z) y (List.mem_cons_of_mem _ h2)

theorem maxByLen_mem (l : List String) (x : String) (h : maxByLen l = some x) :
    x ∈ l := by
  cases l with
  | nil => simp [maxByLen] at h
  | cons a as =>
    simp only [maxByLen, Option.some.injEq] at h
    subst h
    exact foldl_pickLonger_mem as a

theorem maxByLen_ge (l : List String) (x : String) (h : maxByLen l = some x) :
    ∀ y ∈ l, y.length ≤ x.length := by
  cases l with
  | nil => simp [maxByLen] at h
  | cons a as =>
    simp only [maxByLen, Option.some.injEq] at h
    subst h
    exact fun y hy => foldl_pickLonger_ge as a y hy

theorem maxByLen_isSome (l : List String) (h : l ≠ []) :
    (maxByLen l).isSome = true := by
  cases l with
  | nil => exact absurd rfl h
  | cons a as => simp [maxByLen]

theorem alistLookup_isSome_of_mem_keys {α : Type} (m : List (String × α))
    (k : String) (h : k ∈ m.map Prod.fst) : (alistLookup m k).isSome = true := by
  induction m with
  | nil => simp at h
  | cons p rest ih =>
    simp only [List.map_cons, List.mem_cons] at h
    by_cases hk : p.1 = k
    · simp [alistLookup, hk]
    · rcases h with h | h
      · exact absurd h.symm hk
      · simpa [alistLookup, hk] using ih h

theorem mem_substringMatches (m : BotMap) (bot_id k : String) :
    k ∈ substringMatches m bot_id ↔ k ∈ m.map Prod.fst ∧ strContains bot_id k = true := by
  simp [substringMatches, List.mem_filter]

/-! ## C1: bot resolution -/

/-- C1: For every supplied `bot_id`, an exact key of the config table is
returned as is; otherwise, whenever some table keys occur literally as
substrings of `bot_id`, resolution succeeds and the returned config is
the one stored under a matching key of maximal length (Python
`max(..., key=len)`). -/
theorem resolveBot_correct (bot_id : String) :
    (∀ cfg, alistLookup botMap bot_id = some cfg →
      resolveBot botMap bot_id = some cfg) ∧
    (alistLookup botMap bot_id = none →
      ∀ cfg, resolveBot botMap bot_id = some cfg →
        ∃ k, k ∈ substringMatches botMap bot_id ∧
          alistLookup botMap k = some cfg ∧
          ∀ k2 ∈ substringMatches botMap bot_id, k2.length ≤ k.length) ∧
    (alistLookup botMap bot_id = none → substringMatches botMap bot_id ≠ [] →
      (resolveBot botMap bot_id).isSome = true) := by
  refine ⟨fun cfg hcfg => ?_, fun hnone cfg hres => ?_, fun hnone hne => ?_⟩
  · simp [resolveBot, hcfg]
  · unfold resolveBot at hres
    rw [hnone] at hres
    cases hmax : maxByLen (substringMatches botMap bot_id) with
    | none => rw [hmax] at hres; simp at hres
    | some max_id =>
      rw [hmax] at hres
      exact ⟨max_id, maxByLen_mem _ _ hmax, hres, maxByLen_ge _ _ hmax⟩
  · unfold resolveBot
    rw [hnone]
    cases hmax : maxByLen (substringMatches botMap bot_id) with
    | none =>
      have := maxByLen_isSome _ hne
      rw [hmax] at this
      simp at this
    | some max_id =>
      have hk := maxByLen_mem _ _ hmax
      rw [mem_substringMatches] at hk
      exact alistLookup_isSome_of_mem_keys _ _ hk.1

/-- Witness for C1: `"main-tests"` is an exact key and resolves to its
own config; `"zz-fyi-tests"` is no key but contains the key
`"fyi-tests"`, so resolution succeeds. -/
theorem resolveBot_correct_witness :
    resolveBot botMap "main-tests" =
      some ⟨"main-tests", ["--extract-build"],
        some ⟨["ui", "unit"], some ["--upload-to-flakiness-server"]⟩, none⟩ ∧
    (resolveBot botMap "zz-fyi-tests").isSome = true :=
  ⟨(resolveBot_correct "main-tests").1 _ (by rfl),
   (resolveBot_correct "zz-fyi-tests").2.2 (by rfl) (by decide)⟩

/-! ## C2: try-bot aliasing -/

/-- The `extra_args` of the test spec stored under `id` in map `m`, when
the entry and its test spec exist. -/
def extraArgsOf (m : BotMap) (id : String) : Option (List String) :=
  match alistLookup m id with
  | none => none
  | some cfg =>
    match cfg.test_obj with
    | none => none
    | some t => t.extra_args

/-- The entry has a test spec whose `extra_args` contain the
flakiness-server flag. -/
def hasFlakinessFlag (o : Option (List String)) : Bool :=
  match o with
  | none => false
  | some l => l.contains flakiness_server

/-- The entry has a test spec with present `extra_args` that do NOT
contain the flakiness-server flag. -/
def lacksFlakinessFlag (o : Option (List String)) : Bool :=
  match o with
  | none => false
  | some l => !l.contains flakiness_server

/-- C2: For every alias entry of `copy_map` whose new id starts with
`"try"` and whose source entry in the constructed map carries the
dashboard-upload flag in its test `extra_args`, the aliased entry in the
constructed map has `extra_args` without that flag; the source entry
`"main-tests"` still carries the flag in the map, while its alias
`"try-tests"` does not. -/
theorem tryBots_strip_flakiness :
    (∀ p ∈ copy_map, strStartsWith p.1 "try" = true →
      hasFlakinessFlag (extraArgsOf botMap p.2) = true →
      lacksFlakinessFlag (extraArgsOf botMap p.1) = true) ∧
    hasFlakinessFlag (extraArgsOf botMap "main-tests") = true ∧
    lacksFlakinessFlag (extraArgsOf botMap "try-tests") = true := by
  decide

/-- Witness for C2: the alias pair `("try-tests", "main-tests")` of
`copy_map`, whose source config carries the flag, yields an aliased entry
without it. -/
theorem tryBots_strip_flakiness_witness :
    lacksFlakinessFlag (extraArgsOf botMap "try-tests") = true :=
  tryBots_strip_flakiness.1 ("try-tests", "main-tests") (by decide) (by decide)
    (by decide)

/-! ## C3: execution driver -/

/-- The argv lists actually spawned during a run, in order. -/
def execs (evs : List Event) : List (List String) :=
  evs.filterMap fun e =>
    match e with
    | .exec argv => some argv
    | _ => none

@[simp] theorem execs_nil : execs [] = [] := rfl

@[simp] theorem execs_append (a b : List Event) :
    execs (a ++ b) = execs a ++ execs b := by
  simp [execs, List.filterMap_append]

@[simp] theorem execs_namedStep (n : String) (t : List Event) :
    execs (Event.namedStep n :: t) = execs t := rfl

@[simp] theorem execs_exec (argv : List String) (t : List Event) :
    execs (Event.exec argv :: t) = argv :: execs t := rfl

@[simp] theorem execs_skipped (t : List Event) :
    execs (Event.skipped :: t) = execs t := rfl

@[simp] theorem execs_resolve (b : String) (t : List Event) :
    execs (Event.resolve b :: t) = execs t := rfl

theorem execs_pre (c : Command) :
    execs (if c.step_name = "" then [] else [.namedStep c.step_name]) = [] := by
  split <;> rfl

theorem runCommands_cons_false (ec : List String → Int) (c : Command)
    (rest : List Command) :
    runCommands false ec (c :: rest) =
      if ec c.command ≠ 0 then
        (some (ec c.command),
          (if c.step_name = "" then [] else [Event.namedStep c.step_name]) ++
            [.exec c.command])
      else
        ((runCommands false ec rest).1,
          (if c.step_name = "" then [] else [Event.namedStep c.step_name]) ++
            .exec c.command :: (runCommands false ec rest).2) := by
  simp only [runCommands, Bool.false_eq_true, if_false]

theorem runCommands_all_zero (exitCode : List String → Int) :
    ∀ cmds : List Command, (∀ x ∈ cmds, exitCode x.command = 0) →
      (runCommands false exitCode cmds).1 = none ∧
      execs (runCommands false exitCode cmds).2 = cmds.map Command.command := by
  intro cmds
  induction cmds with
  | nil => intro _; exact ⟨rfl, rfl⟩
  | cons c rest ih =>
    intro h
    have hc : exitCode c.command = 0 := h c (List.mem_cons_self _ _)
    have hr := ih fun x hx => h x (List.mem_cons_of_mem _ hx)
    rw [runCommands_cons_false, if_neg (by simp [hc])]
    exact ⟨hr.1, by simp [execs_pre, hr.2]⟩

/-- C3: Commands run strictly in order.  If every command before `c`
exits zero and `c` exits non-zero, the run stops at `c`: its code is
returned and becomes the program exit code, and the spawned argv list is
exactly the earlier commands followed by `c` — nothing after `c` is
invoked.  If every command exits zero, the run returns `None` and the
program exits 0. -/
theorem runCommands_first_failure (exitCode : List String → Int)
    (pre : List Command) (c : Command) (post : List Command)
    (hpre : ∀ x ∈ pre, exitCode x.command = 0)
    (hc : exitCode c.command ≠ 0) :
    (runCommands false exitCode (pre ++ c :: post)).1 = some (exitCode c.command) ∧
    programExitCode (runCommands false exitCode (pre ++ c :: post)).1 =
      exitCode c.command ∧
    execs (runCommands false exitCode (pre ++ c :: post)).2 =
      pre.map Command.command ++ [c.command] ∧
    (∀ cmds : List Command, (∀ x ∈ cmds, exitCode x.command = 0) →
      (runCommands false exitCode cmds).1 = none ∧
      programExitCode (runCommands false exitCode cmds).1 = 0) := by
  have habort : (runCommands false exitCode (pre ++ c :: post)).1 =
      some (exitCode c.command) ∧
      execs (runCommands false exitCode (pre ++ c :: post)).2 =
        pre.map Command.command ++ [c.command] := by
    induction pre with
    | nil =>
      rw [List.nil_append, runCommands_cons_false, if_pos hc]
      exact ⟨rfl, by simp [execs_pre]⟩
    | cons x rest ih =>
      have hx : exitCode x.command = 0 := hpre x (List.mem_cons_self _ _)
      have hr := ih fun y hy => hpre y (List.mem_cons_of_mem _ hy)
      rw [List.cons_append, runCommands_cons_false, if_neg (by simp [hx])]
      exact ⟨hr.1, by simp [execs_pre, hr.2]⟩
  refine ⟨habort.1, ?_, habort.2, ?_⟩
  · rw [habort.1]; rfl
  · intro cmds h
    have := runCommands_all_zero exitCode cmds h
    exact ⟨this.1, by rw [this.1]; rfl⟩

/-- Witness for C3: two commands, the first exiting with code 2 — the
second is never spawned and the program exit code is 2. -/
theorem runCommands_first_failure_witness :
    (runCommands false
        (fun argv => if argv = ["first"] then 2 else 0)
        [⟨"s1", ["first"], some ["first"]⟩, ⟨"s2", ["second"], some ["second"]⟩]).1 =
      some 2 ∧
    execs (runCommands false
        (fun argv => if argv = ["first"] then 2 else 0)
        [⟨"s1", ["first"], some ["first"]⟩, ⟨"s2", ["second"], some ["second"]⟩]).2 =
      [["first"]] := by
  have h := runCommands_first_failure
    (fun argv => if argv = ["first"] then 2 else 0)
    [] ⟨"s1", ["first"], some ["first"]⟩ [⟨"s2", ["second"], some ["second"]⟩]
    (by intro x hx; simp at hx) (by decide)
  exact ⟨by simpa using h.1, by simpa using h.2.2.1⟩

/-! ## C4: command formatter output shape -/

/-- C4: `GetCommands` returns the `"Host steps"` command (present exactly
when `host_opts` is non-empty) before the `"Run tests"` command (present
exactly when a test spec is present); the host command's bare argv is the
host-step script, the host opts, then the three property arguments; the
test command's bare argv is the device-step script, the `--reboot` flag,
the three property arguments, one `-f <test>` pair per test in
declaration order, then the extra args. -/
theorem GetCommands_shape (o : Options) (cfg : BotConfig) :
    ((GetCommands o cfg).map Command.step_name =
      (if cfg.host_opts.isEmpty then [] else ["Host steps"]) ++
      (match cfg.test_obj with | none => [] | some _ => ["Run tests"])) ∧
    (cfg.host_opts.isEmpty = false →
      ∃ cmd, cmd ∈ GetCommands o cfg ∧ cmd.step_name = "Host steps" ∧
        cmd.testing_cmd = some (["build/android/buildbot/bb_host_steps.py"] ++
          cfg.host_opts ++ propertyArgs o (jsonDumps (slavePropsOf cfg)))) ∧
    (∀ t, cfg.test_obj = some t →
      ∃ cmd, cmd ∈ GetCommands o cfg ∧ cmd.step_name = "Run tests" ∧
        cmd.testing_cmd =
          some (["build/android/buildbot/bb_device_steps.py", "--reboot"] ++
            propertyArgs o (jsonDumps (slavePropsOf cfg)) ++
            (t.tests.flatMap fun test => ["-f", test]) ++
            t.extra_args.getD [])) := by
  refine ⟨?_, fun hhost => ?_, fun t ht => ?_⟩
  · unfold GetCommands
    cases hh : cfg.host_opts.isEmpty <;> cases hto : cfg.test_obj <;> simp [hh, hto]
  · unfold GetCommands
    rw [hhost]
    cases hto : cfg.test_obj <;>
      exact ⟨_, List.mem_cons_self _ _, rfl, by simp⟩
  · unfold GetCommands
    rw [ht]
    exact ⟨_, List.mem_append_right _ (List.mem_cons_self _ _), rfl, by simp⟩

/-- Witness for C4 on the `"main-builder-dbg"`-shaped config extended
with a test spec: both commands are present in order and the test argv
has the declared shape. -/
theorem GetCommands_shape_witness :
    (GetCommands ⟨[], [], none, false⟩
        ⟨"b", ["--compile"], some ⟨["ui", "unit"], some ["--x"]⟩, none⟩).map
      Command.step_name = ["Host steps", "Run tests"] ∧
    (∃ cmd, cmd ∈ GetCommands ⟨[], [], none, false⟩
        ⟨"b", ["--compile"], some ⟨["ui", "unit"], some ["--x"]⟩, none⟩ ∧
      cmd.step_name = "Run tests" ∧
      cmd.testing_cmd =
        some (["build/android/buildbot/bb_device_steps.py", "--reboot"] ++
          propertyArgs ⟨[], [], none, false⟩
            (jsonDumps (slavePropsOf
              ⟨"b", ["--compile"], some ⟨["ui", "unit"], some ["--x"]⟩, none⟩)) ++
          (["ui", "unit"].flatMap fun test => ["-f", test]) ++ ["--x"])) :=
  ⟨(GetCommands_shape ⟨[], [], none, false⟩
      ⟨"b", ["--compile"], some ⟨["ui", "unit"], some ["--x"]⟩, none⟩).1,
   (GetCommands_shape ⟨[], [], none, false⟩
      ⟨"b", ["--compile"], some ⟨["ui", "unit"], some ["--x"]⟩, none⟩).2.2
      ⟨["ui", "unit"], some ["--x"]⟩ rfl⟩

/-! ## C5: unresolved bot id exits with code 1 -/

/-- C5: When the chosen bot id is neither an exact key of the bot map nor
has any key occurring inside it as a substring, resolution returns
nothing (as opposed to some present-but-empty config) and the program
exits with code 1, having spawned nothing. -/
theorem unresolved_exits_one (jsonLoads : String → Option Props) (raw : RawArgs)
    (exitCode : List String → Int) (options : Options) (b : String)
    (hparse : parseOptions jsonLoads raw = .ok options)
    (hb : chosenBotId options = some b) (hbne : b ≠ "")
    (hkey : alistLookup botMap b = none)
    (hsub : substringMatches botMap b = []) :
    resolveBot botMap b = none ∧
    mainRun jsonLoads raw exitCode = (.exit 1, [.resolve b]) := by
  have hres : resolveBot botMap b = none := by
    unfold resolveBot
    rw [hkey, hsub]
    rfl
  refine ⟨hres, ?_⟩
  unfold mainRun
  rw [hparse]
  dsimp only
  rw [hb]
  have htruthy : botIdTruthy (some b) = true := by
    simp [botIdTruthy, hbne]
  rw [if_pos htruthy]
  simp only [Option.getD_some]
  rw [hres]

/-- Witness for C5: the bot id `"zzz"` matches no key exactly and
contains none as a substring, so the program exits with code 1. -/
theorem unresolved_exits_one_witness :
    resolveBot botMap "zzz" = none ∧
    mainRun (fun _ => some []) ⟨none, none, some "zzz", false, []⟩ (fun _ => 0) =
      (.exit 1, [.resolve "zzz"]) :=
  unresolved_exits_one (fun _ => some []) ⟨none, none, some "zzz", false, []⟩
    (fun _ => 0) ⟨[], [], some "zzz", false⟩ "zzz"
    (by rfl) (by rfl) (by decide) (by rfl) (by rfl)

/-! ## C6: config-table construction

The copy loop fails fast (assertion / `KeyError`), but the primary
indexing step `dict((config.bot_id, config) for config in bot_configs)`
cannot fail: a duplicate primary id silently keeps the last entry. -/

theorem dictInsert_cons_eq {α : Type} (k1 : String) (v1 : α)
    (rest : List (String × α)) (k : String) (v : α) (h : k1 = k) :
    dictInsert ((k1, v1) :: rest) k v = (k, v) :: rest := by
  simp [dictInsert, h]

theorem dictInsert_cons_ne {α : Type} (k1 : String) (v1 : α)
    (rest : List (String × α)) (k : String) (v : α) (h : ¬k1 = k) :
    dictInsert ((k1, v1) :: rest) k v = (k1, v1) :: dictInsert rest k v := by
  simp [dictInsert, h]

theorem mem_keys_dictInsert {α : Type} (m : List (String × α)) (k : String)
    (v : α) (a : String) :
    a ∈ (dictInsert m k v).map Prod.fst ↔ a = k ∨ a ∈ m.map Prod.fst := by
  induction m with
  | nil => simp [dictInsert]
  | cons p rest ih =>
    obtain ⟨k1, v1⟩ := p
    by_cases hp : k1 = k
    · rw [dictInsert_cons_eq _ _ _ _ _ hp]
      subst hp
      simp only [List.map_cons, List.mem_cons]
      tauto
    · rw [dictInsert_cons_ne _ _ _ _ _ hp]
      simp only [List.map_cons, List.mem_cons, ih]
      tauto

theorem nodup_keys_dictInsert {α : Type} (m : List (String × α)) (k : String)
    (v : α) (h : (m.map Prod.fst).Nodup) :
    ((dictInsert m k v).map Prod.fst).Nodup := by
  induction m with
  | nil => simp [dictInsert]
  | cons p rest ih =>
    obtain ⟨k1, v1⟩ := p
    simp only [List.map_cons, List.nodup_cons] at h
    by_cases hp : k1 = k
    · rw [dictInsert_cons_eq _ _ _ _ _ hp]
      simp only [List.map_cons, List.nodup_cons]
      exact ⟨hp ▸ h.1, h.2⟩
    · rw [dictInsert_cons_ne _ _ _ _ _ hp]
      simp only [List.map_cons, List.nodup_cons, mem_keys_dictInsert]
      exact ⟨fun hc => hc.elim hp h.1, ih h.2⟩

theorem nodup_keys_primaries (primaries : List BotConfig) :
    ∀ init : List (String × BotConfig), (init.map Prod.fst).Nodup →
      (((primaries.foldl (fun m c => dictInsert m c.bot_id c) init)).map
        Prod.fst).Nodup := by
  induction primaries with
  | nil => intro init h; simpa using h
  | cons c rest ih =>
    intro init h
    exact ih (dictInsert init c.bot_id c) (nodup_keys_dictInsert _ _ _ h)

theorem nodup_keys_applyCopy (m m2 : BotMap) (pair : String × String)
    (h : applyCopy m pair = some m2) (hm : (m.map Prod.fst).Nodup) :
    (m2.map Prod.fst).Nodup := by
  unfold applyCopy at h
  by_cases hk : (alistLookup m pair.1).isSome
  · rw [if_pos hk] at h; exact absurd h (by simp)
  · rw [if_neg hk] at h
    cases hsrc : alistLookup m pair.2 with
    | none => rw [hsrc] at h; exact absurd h (by simp)
    | some src =>
      rw [hsrc] at h
      simp only [Option.some.injEq] at h
      subst h
      exact nodup_keys_dictInsert _ _ _ hm

theorem nodup_keys_copies (copies : List (String × String)) :
    ∀ base m : BotMap, copies.foldlM applyCopy base = some m →
      (base.map Prod.fst).Nodup → (m.map Prod.fst).Nodup := by
  induction copies with
  | nil =>
    intro base m h hb
    simp only [List.foldlM_nil, pure, Option.some.injEq] at h
    exact h ▸ hb
  | cons p rest ih =>
    intro base m h hb
    simp only [List.foldlM_cons] at h
    cases hstep : applyCopy base p with
    | none => rw [hstep] at h; exact absurd h (by simp [Bind.bind])
    | some base2 =>
      rw [hstep] at h
      simp only [Option.bind_eq_bind, Option.some_bind] at h
      exact ih base2 m h (nodup_keys_applyCopy _ _ _ hstep hb)

/-- C6 counterexample: two primary configs with the same `bot_id`
collide, yet construction does not fail — it succeeds and silently keeps
the later entry. -/
theorem buildBotMap_primary_collision :
    (B "a" ["--x"] none none).bot_id = (B "a" ["--y"] none none).bot_id ∧
    buildBotMap [B "a" ["--x"] none none, B "a" ["--y"] none none] [] =
      some [("a", B "a" ["--y"] none none)] := by
  constructor
  · rfl
  · rfl

/-- C6 amended: the primary indexing step never fails — even colliding
primary ids build a map (the later entry winning) — while the copy loop
fails fast when an alias's new id is already present or its source id is
absent; and every successfully constructed map has unique bot
identifiers.  `GetBotStepMap` itself succeeds on the script's tables. -/
theorem buildBotMap_correct :
    (∀ primaries : List BotConfig, (buildBotMap primaries []).isSome = true) ∧
    (∀ (primaries : List BotConfig) (copies : List (String × String)) (m : BotMap),
      buildBotMap primaries copies = some m → (m.map Prod.fst).Nodup) ∧
    (∀ (m : BotMap) (pair : String × String),
      (alistLookup m pair.1).isSome = true → applyCopy m pair = none) ∧
    (∀ (m : BotMap) (pair : String × String),
      alistLookup m pair.1 = none → alistLookup m pair.2 = none →
      applyCopy m pair = none) ∧
    GetBotStepMap.isSome = true := by
  refine ⟨fun primaries => ?_, fun primaries copies m h => ?_,
    fun m pair hk => ?_, fun m pair hk hs => ?_, by rfl⟩
  · simp [buildBotMap]
  · exact nodup_keys_copies copies _ m h
      (nodup_keys_primaries primaries [] (by simp))
  · unfold applyCopy
    rw [if_pos hk]
  · unfold applyCopy
    rw [if_neg (by simp [hk]), hs]

/-- Witness for C6 (amended): an alias whose new id is already a key is
rejected, an alias with an absent source id is rejected, and the full
`GetBotStepMap` succeeds with unique identifiers. -/
theorem buildBotMap_correct_witness :
    applyCopy [("a", B "a" ["--x"] none none)] ("a", "a") = none ∧
    applyCopy [("a", B "a" ["--x"] none none)] ("b", "zzz") = none ∧
    GetBotStepMap.isSome = true :=
  ⟨buildBotMap_correct.2.2.1 [("a", B "a" ["--x"] none none)] ("a", "a")
      (by rfl),
   buildBotMap_correct.2.2.2.1 [("a", B "a" ["--x"] none none)] ("b", "zzz")
      (by rfl) (by rfl),
   buildBotMap_correct.2.2.2.2⟩

/-! ## C7: JSON decode failure surfaces during option parsing -/

/-- C7: If decoding the supplied `--build-properties` or
`--factory-properties` value fails, the run ends at the option-parsing
layer: `parseOptions` errors and `mainRun` produces the usage outcome
with an empty event trace — no bot-id resolution and no command
execution ever happens. -/
theorem json_failure_usage (jsonLoads : String → Option Props) (raw : RawArgs)
    (exitCode : List String → Int)
    (h : (∃ s, raw.build_properties = some s ∧ jsonLoads s = none) ∨
         (∃ s, raw.factory_properties = some s ∧ jsonLoads s = none)) :
    parseOptions jsonLoads raw = .error () ∧
    mainRun jsonLoads raw exitCode = (.usage, []) := by
  have hparse : parseOptions jsonLoads raw = .error () := by
    rcases h with ⟨s, hs, hjson⟩ | ⟨s, hs, hjson⟩
    · have : decodeFlag jsonLoads raw.build_properties = none := by
        rw [hs]; exact hjson
      unfold parseOptions
      rw [this]
    · have hf : decodeFlag jsonLoads raw.factory_properties = none := by
        rw [hs]; exact hjson
      unfold parseOptions
      cases hb : decodeFlag jsonLoads raw.build_properties with
      | none => rfl
      | some bp => rw [hf]
  refine ⟨hparse, ?_⟩
  unfold mainRun
  rw [hparse]

/-- Witness for C7: a decoder rejecting the supplied
`--build-properties` value ends the run at the parsing layer with an
empty trace. -/
theorem json_failure_usage_witness :
    parseOptions (fun _ => none) ⟨some "notjson", none, some "b", false, []⟩ =
      .error () ∧
    mainRun (fun _ => none) ⟨some "notjson", none, some "b", false, []⟩
      (fun _ => 0) = (.usage, []) :=
  json_failure_usage (fun _ => none) ⟨some "notjson", none, some "b", false, []⟩
    (fun _ => 0) (Or.inl ⟨"notjson", rfl, rfl⟩)

/-! ## C8: bot-id source precedence -/

/-- C8 counterexample: the `--bot-id` flag supplied with the empty string
is falsy in Python, so the factory-properties key wins even though the
flag was supplied — the claim's unconditional flag precedence fails. -/
theorem chosenBotId_empty_flag :
    (⟨[], [("android_bot_id", "factory-bot")], some "", false⟩ : Options).bot_id =
      some "" ∧
    chosenBotId ⟨[], [("android_bot_id", "factory-bot")], some "", false⟩ =
      some "factory-bot" ∧
    chosenBotId ⟨[], [("android_bot_id", "factory-bot")], some "", false⟩ ≠
      some "" := by
  refine ⟨rfl, rfl, ?_⟩
  decide

/-- C8 amended: a `--bot-id` flag supplied with a non-empty value is used
in preference to the `android_bot_id` factory-properties key; when the
flag is absent — or supplied empty, which Python treats as absent — the
factory-properties key is consulted. -/
theorem chosenBotId_precedence (options : Options) :
    (∀ s, options.bot_id = some s → s ≠ "" → chosenBotId options = some s) ∧
    ((options.bot_id = none ∨ options.bot_id = some "") →
      chosenBotId options =
        alistLookup options.factory_properties "android_bot_id") := by
  constructor
  · intro s hs hne
    simp [chosenBotId, hs, hne]
  · intro h
    rcases h with h | h <;> simp [chosenBotId, h]

/-- Witness for C8 (amended): a non-empty flag value wins over a present
factory-properties key. -/
theorem chosenBotId_precedence_witness :
    chosenBotId ⟨[], [("android_bot_id", "factory-bot")], some "cli-bot", false⟩ =
      some "cli-bot" :=
  (chosenBotId_precedence
      ⟨[], [("android_bot_id", "factory-bot")], some "cli-bot", false⟩).1
    "cli-bot" rfl (by decide)

/-! ## C9: determinism of table construction and formatting -/

/-- C9: `GetBotStepMap` takes no input and is a fixed value of the
embedding — two evaluations are equal — and `GetCommands` is a pure
function of its two arguments: equal options and equal configs give
structurally identical command lists. -/
theorem formatting_deterministic (o1 o2 : Options) (c1 c2 : BotConfig)
    (ho : o1 = o2) (hc : c1 = c2) :
    GetCommands o1 c1 = GetCommands o2 c2 ∧
    GetBotStepMap = GetBotStepMap ∧ botMap = botMap := by
  subst ho
  subst hc
  exact ⟨rfl, rfl, rfl⟩

/-- Witness for C9: two identical calls on the `"main-tests"` config. -/
theorem formatting_deterministic_witness :
    GetCommands ⟨[], [], none, false⟩
        ⟨"main-tests", ["--extract-build"],
          some ⟨["ui", "unit"], some ["--upload-to-flakiness-server"]⟩, none⟩ =
      GetCommands ⟨[], [], none, false⟩
        ⟨"main-tests", ["--extract-build"],
          some ⟨["ui", "unit"], some ["--upload-to-flakiness-server"]⟩, none⟩ :=
  (formatting_deterministic _ _ _ _ rfl rfl).1

/-! ## C10: every formatted command is runnable and announced -/

/-- Count of named-step markers in a trace. -/
def countNamedSteps (evs : List Event) : Nat :=
  evs.countP fun e =>
    match e with
    | .namedStep _ => true
    | _ => false

/-- Count of spawned commands in a trace. -/
def countExecs (evs : List Event) : Nat :=
  evs.countP fun e =>
    match e with
    | .exec _ => true
    | _ => false

theorem runCommands_no_skip (testing : Bool) (exitCode : List String → Int) :
    ∀ cmds : List Command,
      (∀ c ∈ cmds, c.step_name ≠ "" ∧
        ∃ tc, c.testing_cmd = some tc ∧ tc ≠ []) →
      Event.skipped ∉ (runCommands testing exitCode cmds).2 ∧
      countNamedSteps (runCommands testing exitCode cmds).2 =
        countExecs (runCommands testing exitCode cmds).2 := by
  intro cmds
  induction cmds with
  | nil => intro _; simp [runCommands, countNamedSteps, countExecs]
  | cons c rest ih =>
    intro h
    obtain ⟨hname, tc, htc, htcne⟩ := h c (List.mem_cons_self _ _)
    have hr := ih fun x hx => h x (List.mem_cons_of_mem _ hx)
    have hfalsy : testingCmdFalsy c.testing_cmd = false := by
      rw [htc]
      simp [testingCmdFalsy, htcne]
    unfold runCommands
    rw [if_neg hname]
    cases testing with
    | true =>
      rw [if_pos rfl, hfalsy]
      simp only [Bool.false_eq_true, if_false]
      split
      · simp [countNamedSteps, countExecs]
      · refine ⟨?_, ?_⟩
        · simp only [List.cons_append, List.nil_append, List.mem_cons]
          push_neg
          exact ⟨by simp, by simp, hr.1⟩
        · simp only [List.cons_append, List.nil_append, countNamedSteps,
            countExecs, List.countP_cons] at hr ⊢
          omega
    | false =>
      simp only [Bool.false_eq_true, if_false]
      split
      · simp [countNamedSteps, countExecs]
      · refine ⟨?_, ?_⟩
        · simp only [List.cons_append, List.nil_append, List.mem_cons]
          push_neg
          exact ⟨by simp, by simp, hr.1⟩
        · simp only [List.cons_append, List.nil_append, countNamedSteps,
            countExecs, List.countP_cons] at hr ⊢
          omega

/-- C10: Every command `GetCommands` returns carries a non-empty step
name (`"Host steps"` or `"Run tests"`) and a present, non-empty
`testing_cmd`; consequently, running such a list prints one named-step
marker per spawned command and the testing-mode skip branch is never
taken. -/
theorem GetCommands_invariant (o : Options) (cfg : BotConfig) (testing : Bool)
    (exitCode : List String → Int) :
    (∀ cmd ∈ GetCommands o cfg,
      cmd.step_name ≠ "" ∧
      (cmd.step_name = "Host steps" ∨ cmd.step_name = "Run tests") ∧
      ∃ tc, cmd.testing_cmd = some tc ∧ tc ≠ []) ∧
    Event.skipped ∉ (runCommands testing exitCode (GetCommands o cfg)).2 ∧
    countNamedSteps (runCommands testing exitCode (GetCommands o cfg)).2 =
      countExecs (runCommands testing exitCode (GetCommands o cfg)).2 := by
  have hinv : ∀ cmd ∈ GetCommands o cfg,
      cmd.step_name ≠ "" ∧
      (cmd.step_name = "Host steps" ∨ cmd.step_name = "Run tests") ∧
      ∃ tc, cmd.testing_cmd = some tc ∧ tc ≠ [] := by
    intro cmd hcmd
    unfold GetCommands at hcmd
    rcases List.mem_append.mp hcmd with hmem | hmem
    · split at hmem
      · simp at hmem
      · simp only [List.mem_singleton] at hmem
        subst hmem
        exact ⟨by show ("Host steps" : String) ≠ ""; decide, Or.inl rfl, _, rfl,
          by simp⟩
    · revert hmem
      cases cfg.test_obj with
      | none => intro hmem; simp at hmem
      | some t =>
        intro hmem
        simp only [List.mem_singleton] at hmem
        subst hmem
        exact ⟨by show ("Run tests" : String) ≠ ""; decide, Or.inr rfl, _, rfl,
          by simp⟩
  refine ⟨hinv, ?_⟩
  exact runCommands_no_skip testing exitCode (GetCommands o cfg)
    fun c hc => ⟨(hinv c hc).1, (hinv c hc).2.2⟩

/-- Witness for C10: the commands formatted for a config with host opts
and a test spec, run in testing mode, skip nothing and announce each
spawned command. -/
theorem GetCommands_invariant_witness :
    Event.skipped ∉
      (runCommands true (fun _ => 0)
        (GetCommands ⟨[], [], none, true⟩
          ⟨"b", ["--compile"], some ⟨["ui"], some ["--x"]⟩, none⟩)).2 :=
  (GetCommands_invariant ⟨[], [], none, true⟩
      ⟨"b", ["--compile"], some ⟨["ui"], some ["--x"]⟩, none⟩ true
      (fun _ => 0)).2.1

end BbRunBot
